import Mathlib

/-!
Verification of the distributed batch-dispatch and result-aggregation
pipeline (distributed qualification tooling): shallow embedding of the
result combiner, the worker executor, the spark job manager and the
hdfs manager, with theorems checking the specified properties.
-/

set_option maxHeartbeats 1000000

/-- A parsed tabular row (one CSV data row). -/
abbrev Row := List String

/-- A JSON value, as far as the JSON processor inspects it:
`json.load` may return a list, an object (dict), or a scalar; the
processor checks `isinstance(data, list)` and that every element is a
dict. -/
inductive JVal where
  | obj (fields : List (String × JVal))
  | arr (items : List JVal)
  | str (s : String)
  | num (n : Int)
  | boolVal (b : Bool)
  | null

/-- Mirrors `isinstance(item, dict)`. -/
def JVal.isDict : JVal → Bool
  | .obj _ => true
  | _ => false

/-- Mirrors `isinstance(data, list) and all(isinstance(item, dict) for item in data)`. -/
def isListOfRecords : JVal → Bool
  | .arr items => items.all JVal.isDict
  | _ => false

/-- The elements of a JSON array (the records appended by the JSON processor). -/
def JVal.items : JVal → List JVal
  | .arr its => its
  | _ => []

/-- Python dict lookup over an insertion-ordered association list
(`m[k]` when present). -/
def dfind {α : Type} : List (String × α) → String → Option α
  | [], _ => none
  | p :: ps, k => if p.1 = k then some p.2 else dfind ps k

/-- Mirrors `if k in m: m[k] = m[k] ++ v else: m[k] = v` for a dict of
lists (used for both `pd.concat` on dataframes and `list.extend` on
record lists). -/
def dictExtendL {α : Type} (m : List (String × List α)) (k : String) (v : List α) :
    List (String × List α) :=
  match dfind m k with
  | some _ => m.map fun p => if p.1 = k then (p.1, p.2 ++ v) else p
  | none => m ++ [(k, v)]

/-- Mirrors appending text to the output file named `k` (`open(..., mode a)`):
concatenate when the file exists, create it otherwise. -/
def dictAppendS (m : List (String × String)) (k : String) (v : String) :
    List (String × String) :=
  match dfind m k with
  | some _ => m.map fun p => if p.1 = k then (p.1, p.2 ++ v) else p
  | none => m ++ [(k, v)]

/-- Mirrors an overwriting copy of file `k` into the combined tree. -/
def dictPut {α : Type} (m : List (String × α)) (k : String) (v : α) :
    List (String × α) :=
  match dfind m k with
  | some _ => m.map fun p => if p.1 = k then (p.1, v) else p
  | none => m ++ [(k, v)]

/-!
## Result combiner data model

Each item output directory on shared storage is listed once
(`get_file_info(FileSelector(directory.path))`); an empty listing makes
`combine_results` skip the item; otherwise the first entry is the inner
jar-output directory, modelled by `InnerDir`:
CSV files carry parsed rows, JSON files carry a parsed value, log files
carry text content, `runtimeProps` is the content of
`runtime.properties` when present, and `rawMetrics` is the content of
the `raw_metrics` subtree when present (copy operations fail when the
source is absent).
-/

structure InnerDir where
  csvFiles : List (String × List Row)
  jsonFiles : List (String × JVal)
  logFiles : List (String × String)
  runtimeProps : Option String
  rawMetrics : Option (List (String × String))

/-- The mutable state of one `ResultCombiner`: the two in-memory
accumulators (`combined_dataframes`, `combined_json_data`, fresh empty
dicts for every instance) plus the files already landed in the combined
output tree by the immediate processors. -/
structure CombineState where
  combined_dataframes : List (String × List Row)
  combined_json_data : List (String × List JVal)
  logOutputs : List (String × String)
  rawMetricsOut : List (String × String)
  runtimePropsOut : Option String

/-- Embeds `CSVProcessor.process`: for every `*.csv` file, parse it and either
`pd.concat` onto the accumulator entry of the same filename or create
that entry. -/
def csvLoop : List (String × List Row) → List (String × List Row) → List (String × List Row)
  | [], m => m
  | f :: fs, m => csvLoop fs (dictExtendL m f.1 f.2)

def csvProcess (d : InnerDir) (st : CombineState) : CombineState :=
  { st with combined_dataframes := csvLoop d.csvFiles st.combined_dataframes }

/-- Embeds `JSONProcessor.process`: for every `*.json` file, check the parsed
value is a list of dicts (else the wrapped ValueError aborts the whole
combine) and extend the accumulator entry of the same filename. -/
def jsonLoop : List (String × JVal) → List (String × List JVal) →
    Except String (List (String × List JVal))
  | [], m => .ok m
  | f :: fs, m =>
    if isListOfRecords f.2 then jsonLoop fs (dictExtendL m f.1 f.2.items)
    else .error ("Error processing JSON " ++ f.1 ++
      ": Unexpected format: expected list of dictionaries.")

def jsonProcess (d : InnerDir) (st : CombineState) : Except String CombineState :=
  (jsonLoop d.jsonFiles st.combined_json_data).map fun m =>
    { st with combined_json_data := m }

/-- Embeds `LogProcessor.process`: for every `*.log` file, append its content to
the same-named file of the combined tree immediately. -/
def logLoop : List (String × String) → List (String × String) → List (String × String)
  | [], m => m
  | f :: fs, m => logLoop fs (dictAppendS m f.1 f.2)

def logProcess (d : InnerDir) (st : CombineState) : CombineState :=
  { st with logOutputs := logLoop d.logFiles st.logOutputs }

/-- Embeds `RawMetricsProcessor.process`: `fs.copy_files` of the raw_metrics
subtree into the combined tree; raises when the source subtree is
absent, overwrites same-named files otherwise. -/
def rawLoop : List (String × String) → List (String × String) → List (String × String)
  | [], m => m
  | f :: fs, m => rawLoop fs (dictPut m f.1 f.2)

def rawMetricsProcess (d : InnerDir) (st : CombineState) : Except String CombineState :=
  match d.rawMetrics with
  | none => .error "Error copying raw_metrics subtree: source not found"
  | some files => .ok { st with rawMetricsOut := rawLoop files st.rawMetricsOut }

/-- Embeds `RuntimePropertiesProcessor.process`: `copy_file` of the single
`runtime.properties` file into the combined tree (overwriting); raises
when the file is absent. -/
def runtimePropsProcess (d : InnerDir) (st : CombineState) : Except String CombineState :=
  match d.runtimeProps with
  | none => .error "Error copying runtime.properties: source not found"
  | some content => .ok { st with runtimePropsOut := some content }

/-- One iteration of the `combine_results` loop over a listed item
directory: skip when the inner listing is empty, otherwise run the
runtime-properties processor when `combined_dataframes` is still falsy
(empty) and then the four per-kind processors, in source order. -/
def combineStep (st : CombineState) (item : List InnerDir) : Except String CombineState :=
  match item.head? with
  | none => .ok st
  | some d =>
    match (if st.combined_dataframes.isEmpty then runtimePropsProcess d st else .ok st) with
    | .error e => .error e
    | .ok st1 =>
      match jsonProcess d (csvProcess d st1) with
      | .error e => .error e
      | .ok st3 => rawMetricsProcess d (logProcess d st3)

/-- The accumulators of a freshly constructed `ResultCombiner`
(`field(default_factory=dict)`), with an empty combined output tree. -/
def initState : CombineState :=
  { combined_dataframes := []
    combined_json_data := []
    logOutputs := []
    rawMetricsOut := []
    runtimePropsOut := none }

/-- The `for directory in directories` loop of `combine_results`,
threading the combiner state and propagating the first raised error. -/
def combineFrom : CombineState → List (List InnerDir) → Except String CombineState
  | st, [] => .ok st
  | st, item :: rest =>
    match combineStep st item with
    | .error e => .error e
    | .ok st1 => combineFrom st1 rest

/-- The durable combined output tree after the write phase. -/
structure CombinedTree where
  csvFiles : List (String × List Row)
  jsonFiles : List (String × List JVal)
  logFiles : List (String × String)
  rawMetrics : List (String × String)
  runtimeProps : Option String

/-- Embeds `_write_combined_csv` and `_write_combined_json`: each accumulator
entry is written to the same-named file of the combined tree,
overwriting (`to_csv` and `open(..., mode w)`). -/
def writePhase (st : CombineState) : CombinedTree :=
  { csvFiles := st.combined_dataframes
    jsonFiles := st.combined_json_data
    logFiles := st.logOutputs
    rawMetrics := st.rawMetricsOut
    runtimeProps := st.runtimePropsOut }

/-- Embeds `ResultCombiner.combine_results` on a freshly constructed instance:
walk the listed item directories from `initState`, then flush the
accumulators. -/
def combine_results (items : List (List InnerDir)) : Except String CombinedTree :=
  (combineFrom initState items).map writePhase

example : dictExtendL [("a", [1]), ("b", [2])] "a" [3] = [("a", [1, 3]), ("b", [2])] := by decide
example : dictExtendL [("a", [1])] "c" [3] = [("a", [1]), ("c", [3])] := by decide
example : isListOfRecords (JVal.arr [JVal.obj [("id", JVal.num 1)]]) = true := by decide
example : isListOfRecords (JVal.obj []) = false := by decide

/-!
## Combiner lemmas
-/

lemma dictExtendL_ne_nil {α : Type} (m : List (String × List α)) (k : String) (v : List α) :
    dictExtendL m k v ≠ [] := by
  unfold dictExtendL
  cases h : dfind m k with
  | none => simp
  | some w =>
    cases m with
    | nil => simp [dfind] at h
    | cons p ps => simp

lemma csvLoop_ne_nil (fs : List (String × List Row)) :
    ∀ m, m ≠ [] → csvLoop fs m ≠ [] := by
  induction fs with
  | nil => intro m h; simpa [csvLoop] using h
  | cons f fs ih =>
    intro m _
    simp only [csvLoop]
    exact ih _ (dictExtendL_ne_nil _ _ _)

lemma csvLoop_cons_ne_nil (f : String × List Row) (fs : List (String × List Row))
    (m : List (String × List Row)) : csvLoop (f :: fs) m ≠ [] := by
  simp only [csvLoop]
  exact csvLoop_ne_nil fs _ (dictExtendL_ne_nil _ _ _)

lemma jsonProcess_ok {d : InnerDir} {st st' : CombineState}
    (h : jsonProcess d st = .ok st') :
    ∃ m, jsonLoop d.jsonFiles st.combined_json_data = .ok m ∧
      st' = { st with combined_json_data := m } := by
  unfold jsonProcess at h
  cases hl : jsonLoop d.jsonFiles st.combined_json_data with
  | error e => rw [hl] at h; simp [Except.map] at h
  | ok m =>
    rw [hl] at h
    simp [Except.map] at h
    exact ⟨m, rfl, h.symm⟩

lemma rawMetricsProcess_ok {d : InnerDir} {st st' : CombineState}
    (h : rawMetricsProcess d st = .ok st') :
    ∃ files, d.rawMetrics = some files ∧
      st' = { st with rawMetricsOut := rawLoop files st.rawMetricsOut } := by
  unfold rawMetricsProcess at h
  cases hr : d.rawMetrics with
  | none => rw [hr] at h; cases h
  | some files =>
    rw [hr] at h
    simp at h
    exact ⟨files, rfl, h.symm⟩

lemma runtimePropsProcess_ok {d : InnerDir} {st st' : CombineState}
    (h : runtimePropsProcess d st = .ok st') :
    ∃ c, d.runtimeProps = some c ∧ st' = { st with runtimePropsOut := some c } := by
  unfold runtimePropsProcess at h
  cases hr : d.runtimeProps with
  | none => rw [hr] at h; cases h
  | some c =>
    rw [hr] at h
    simp at h
    exact ⟨c, rfl, h.symm⟩

/-- Once the tabular accumulator is non-empty, one combine step keeps it
non-empty and never touches the runtime-properties copy. -/
lemma combineStep_ok_preserves {st : CombineState} {item : List InnerDir}
    {st' : CombineState} (h : combineStep st item = .ok st')
    (hne : st.combined_dataframes ≠ []) :
    st'.runtimePropsOut = st.runtimePropsOut ∧ st'.combined_dataframes ≠ [] := by
  cases item with
  | nil =>
    simp [combineStep] at h
    subst h
    exact ⟨rfl, hne⟩
  | cons d l =>
    have hE : st.combined_dataframes.isEmpty = false := by
      cases hc : st.combined_dataframes with
      | nil => exact absurd hc hne
      | cons a as => rfl
    simp only [combineStep, List.head?, hE] at h
    simp only [Bool.false_eq_true, if_false] at h
    cases hj : jsonProcess d (csvProcess d st) with
    | error e => rw [hj] at h; cases h
    | ok st3 =>
      rw [hj] at h
      obtain ⟨m, _, hst3⟩ := jsonProcess_ok hj
      obtain ⟨files, _, hst'⟩ := rawMetricsProcess_ok h
      subst hst3
      subst hst'
      constructor
      · simp [logProcess, csvProcess]
      · simp only [logProcess, csvProcess]
        exact csvLoop_ne_nil _ _ hne

/-- Folding further items after the tabular accumulator became non-empty
leaves the runtime-properties copy untouched. -/
lemma combineFrom_preserves :
    ∀ (items : List (List InnerDir)) (st st' : CombineState),
      combineFrom st items = .ok st' → st.combined_dataframes ≠ [] →
      st'.runtimePropsOut = st.runtimePropsOut ∧ st'.combined_dataframes ≠ [] := by
  intro items
  induction items with
  | nil =>
    intro st st' h hne
    simp [combineFrom] at h
    subst h
    exact ⟨rfl, hne⟩
  | cons item rest ih =>
    intro st st' h hne
    simp only [combineFrom] at h
    cases hs : combineStep st item with
    | error e => rw [hs] at h; cases h
    | ok st1 =>
      rw [hs] at h
      obtain ⟨h1, h2⟩ := combineStep_ok_preserves hs hne
      obtain ⟨h3, h4⟩ := ih st1 st' h h2
      exact ⟨h3.trans h1, h4⟩

/-- The first processed item, when it has at least one CSV file, fixes
the runtime-properties copy and leaves the accumulator non-empty. -/
lemma combineStep_init_csv {d : InnerDir} {l : List InnerDir} {st' : CombineState}
    (h : combineStep initState (d :: l) = .ok st') (hcsv : d.csvFiles ≠ []) :
    st'.runtimePropsOut = d.runtimeProps ∧ st'.combined_dataframes ≠ [] := by
  simp only [combineStep, List.head?] at h
  rw [show initState.combined_dataframes.isEmpty = true from rfl] at h
  simp only [if_true] at h
  cases hrp : runtimePropsProcess d initState with
  | error e => rw [hrp] at h; cases h
  | ok stA =>
    rw [hrp] at h
    dsimp only at h
    obtain ⟨c, hc, hstA⟩ := runtimePropsProcess_ok hrp
    cases hj : jsonProcess d (csvProcess d stA) with
    | error e => rw [hj] at h; cases h
    | ok st3 =>
      rw [hj] at h
      obtain ⟨m, _, hst3⟩ := jsonProcess_ok hj
      obtain ⟨files, _, hst'⟩ := rawMetricsProcess_ok h
      subst hst3
      subst hst'
      subst hstA
      constructor
      · simp [logProcess, csvProcess, initState, hc]
      · simp only [logProcess, csvProcess]
        cases hcs : d.csvFiles with
        | nil => exact absurd hcs hcsv
        | cons f fs => exact csvLoop_cons_ne_nil _ _ _

/-- Items of the C1 counterexample: the first processed item carries no
tabular file, so the tabular accumulator is still empty when the second
item is visited and `runtime.properties` is copied again. -/
def c1ItemA : InnerDir :=
  { csvFiles := [], jsonFiles := [], logFiles := []
    runtimeProps := some "A", rawMetrics := some [] }

def c1ItemB : InnerDir :=
  { csvFiles := [], jsonFiles := [], logFiles := []
    runtimeProps := some "B", rawMetrics := some [] }

/-- C1 (counterexample): two items whose directories contain no tabular
file but different `runtime.properties` contents; the combined tree ends
with the content of the second item, not the first, so the second item
is not skipped for this file. -/
theorem c1_counterexample :
    combine_results [[c1ItemA], [c1ItemB]] =
      .ok { csvFiles := [], jsonFiles := [], logFiles := []
            rawMetrics := [], runtimeProps := some "B" } ∧
    c1ItemA.runtimeProps = some "A" ∧ (some "B" : Option String) ≠ some "A" :=
  ⟨rfl, rfl, by decide⟩

/-- C1 (amended): the runtime-properties file is copied for each item
processed while the tabular accumulator is still empty; in particular,
when the first processed item contains at least one tabular (CSV) file,
the combined runtime-properties file is the one of that first item and
every subsequent item is skipped for this file. -/
theorem c1_first_writer_wins_with_tabular
    (d : InnerDir) (l : List InnerDir) (rest : List (List InnerDir))
    (tree : CombinedTree) (hcsv : d.csvFiles ≠ [])
    (h : combine_results ((d :: l) :: rest) = .ok tree) :
    tree.runtimeProps = d.runtimeProps := by
  unfold combine_results at h
  cases hf : combineFrom initState ((d :: l) :: rest) with
  | error e => rw [hf] at h; simp [Except.map] at h
  | ok stF =>
    rw [hf] at h
    simp [Except.map] at h
    simp only [combineFrom] at hf
    cases hs : combineStep initState (d :: l) with
    | error e => rw [hs] at hf; cases hf
    | ok st1 =>
      rw [hs] at hf
      obtain ⟨h1, h2⟩ := combineStep_init_csv hs hcsv
      obtain ⟨h3, _⟩ := combineFrom_preserves rest st1 stF hf h2
      rw [← h]
      simp [writePhase]
      rw [h3, h1]

/-!
## Accumulator characterization

`dlookupL m k` is the merged content the accumulator holds for filename
`k`; `contribL fs n` is the contribution of one directory listing to
filename `n`, and the `ConcatItems` functions state the merge expected by
the specification: per-filename concatenation in item-visitation order.
-/

def dlookupL {α : Type} (m : List (String × List α)) (k : String) : List α :=
  (dfind m k).getD []

def contribL {α : Type} : List (String × List α) → String → List α
  | [], _ => []
  | f :: fs, n => (if f.1 = n then f.2 else []) ++ contribL fs n

def contribJ : List (String × JVal) → String → List JVal
  | [], _ => []
  | f :: fs, n => (if f.1 = n then f.2.items else []) ++ contribJ fs n

def csvContribItem (item : List InnerDir) (n : String) : List Row :=
  match item.head? with
  | none => []
  | some d => contribL d.csvFiles n

def jsonContribItem (item : List InnerDir) (n : String) : List JVal :=
  match item.head? with
  | none => []
  | some d => contribJ d.jsonFiles n

/-- Rows expected for filename `n`: concatenation over items, in
visitation order, of the rows of the same-named tabular files. -/
def csvConcatItems : List (List InnerDir) → String → List Row
  | [], _ => []
  | item :: rest, n => csvContribItem item n ++ csvConcatItems rest n

/-- Records expected for filename `n`: concatenation over items, in
visitation order, of the records of the same-named structured files. -/
def jsonConcatItems : List (List InnerDir) → String → List JVal
  | [], _ => []
  | item :: rest, n => jsonContribItem item n ++ jsonConcatItems rest n

lemma dfind_update_eq {α : Type} (m : List (String × List α)) (k : String) (v : List α)
    (w : List α) (hw : dfind m k = some w) :
    dfind (m.map fun p => if p.1 = k then (p.1, p.2 ++ v) else p) k = some (w ++ v) := by
  induction m with
  | nil => cases hw
  | cons p ps ih =>
    by_cases h : p.1 = k
    · have hpw : p.2 = w := by
        simp [dfind, h] at hw
        exact hw
      simp [dfind, h, hpw]
    · simp [dfind, h] at hw ⊢
      exact ih hw

lemma dfind_update_ne {α : Type} (m : List (String × List α)) (k : String) (v : List α)
    (n : String) (hn : n ≠ k) :
    dfind (m.map fun p => if p.1 = k then (p.1, p.2 ++ v) else p) n = dfind m n := by
  induction m with
  | nil => rfl
  | cons p ps ih =>
    have hkn : ¬ k = n := fun he => hn he.symm
    by_cases h : p.1 = k
    · have hpn : ¬ p.1 = n := by
        rw [h]
        exact hkn
      simp [dfind, h, hpn, hkn, ih]
    · by_cases h2 : p.1 = n
      · simp [dfind, h, h2, hn, hkn]
      · simp [dfind, h, h2, hn, hkn, ih]

lemma dfind_append_last {α : Type} (m : List (String × α)) (k : String) (v : α)
    (n : String) :
    dfind (m ++ [(k, v)]) n =
      match dfind m n with
      | some w => some w
      | none => if k = n then some v else none := by
  induction m with
  | nil => rfl
  | cons p ps ih =>
    by_cases h : p.1 = n
    · simp [dfind, h]
    · simp [dfind, h, ih]

/-- One `dict extend` step merges `v` into filename `k` and leaves every
other filename untouched. -/
lemma dlookupL_dictExtendL {α : Type} (m : List (String × List α)) (k : String)
    (v : List α) (n : String) :
    dlookupL (dictExtendL m k v) n = dlookupL m n ++ (if k = n then v else []) := by
  unfold dictExtendL
  cases hf : dfind m k with
  | some w =>
    by_cases h : k = n
    · subst h
      unfold dlookupL
      rw [dfind_update_eq m k v w hf, hf]
      simp
    · unfold dlookupL
      rw [dfind_update_ne m k v n (fun he => h he.symm)]
      simp [h]
  | none =>
    unfold dlookupL
    rw [dfind_append_last m k v n]
    by_cases h : k = n
    · subst h
      rw [hf]
      simp
    · cases hb : dfind m n with
      | some w => simp [h]
      | none => simp [h]

lemma dlookupL_csvLoop (fs : List (String × List Row)) :
    ∀ (m : List (String × List Row)) (n : String),
      dlookupL (csvLoop fs m) n = dlookupL m n ++ contribL fs n := by
  induction fs with
  | nil => intro m n; simp [csvLoop, contribL]
  | cons f fs ih =>
    intro m n
    simp only [csvLoop, contribL]
    rw [ih, dlookupL_dictExtendL, List.append_assoc]

lemma dlookupL_jsonLoop (fs : List (String × JVal)) :
    ∀ (m m' : List (String × List JVal)) (n : String), jsonLoop fs m = .ok m' →
      dlookupL m' n = dlookupL m n ++ contribJ fs n := by
  induction fs with
  | nil =>
    intro m m' n h
    simp [jsonLoop] at h
    subst h
    simp [contribJ]
  | cons f fs ih =>
    intro m m' n h
    simp only [jsonLoop] at h
    cases hw : isListOfRecords f.2 with
    | false => rw [hw] at h; simp at h
    | true =>
      rw [hw] at h
      simp only [if_true] at h
      rw [show contribJ (f :: fs) n = (if f.1 = n then f.2.items else []) ++ contribJ fs n
        from rfl]
      rw [ih _ _ n h, dlookupL_dictExtendL, List.append_assoc]

/-- A structured file whose top level is not a list of records makes the
JSON processor raise. -/
lemma jsonLoop_error (fs : List (String × JVal)) :
    ∀ (m : List (String × List JVal)) (f : String × JVal), f ∈ fs →
      isListOfRecords f.2 = false → ∃ e, jsonLoop fs m = .error e := by
  induction fs with
  | nil => intro m f hf _; cases hf
  | cons g gs ih =>
    intro m f hf hbad
    cases hg : isListOfRecords g.2 with
    | false =>
      refine ⟨"Error processing JSON " ++ g.1 ++
        ": Unexpected format: expected list of dictionaries.", ?_⟩
      simp [jsonLoop, hg]
    | true =>
      cases hf with
      | head => rw [hbad] at hg; cases hg
      | tail _ hmem =>
        obtain ⟨e, he⟩ := ih (dictExtendL m g.1 g.2.items) f hmem hbad
        exact ⟨e, by simp [jsonLoop, hg, he]⟩

/-- One combine step adds exactly the contribution of the processed item
to both accumulators. -/
lemma combineStep_ok_acc {st : CombineState} {item : List InnerDir}
    {st' : CombineState} (h : combineStep st item = .ok st') :
    (∀ n, dlookupL st'.combined_dataframes n =
        dlookupL st.combined_dataframes n ++ csvContribItem item n) ∧
    (∀ n, dlookupL st'.combined_json_data n =
        dlookupL st.combined_json_data n ++ jsonContribItem item n) := by
  cases item with
  | nil =>
    simp [combineStep] at h
    subst h
    simp [csvContribItem, jsonContribItem]
  | cons d l =>
    simp only [combineStep, List.head?] at h
    have hbranch : ∀ st1, (if st.combined_dataframes.isEmpty then runtimePropsProcess d st
        else .ok st) = .ok st1 →
        st1.combined_dataframes = st.combined_dataframes ∧
        st1.combined_json_data = st.combined_json_data := by
      intro st1 hb
      cases he : st.combined_dataframes.isEmpty with
      | true =>
        rw [he] at hb
        simp only [if_true] at hb
        obtain ⟨c, _, hst1⟩ := runtimePropsProcess_ok hb
        subst hst1
        exact ⟨rfl, rfl⟩
      | false =>
        rw [he] at hb
        simp only [Bool.false_eq_true, if_false] at hb
        cases hb
        exact ⟨rfl, rfl⟩
    cases hB : (if st.combined_dataframes.isEmpty then runtimePropsProcess d st
        else .ok st) with
    | error e => rw [hB] at h; cases h
    | ok st1 =>
      rw [hB] at h
      dsimp only at h
      obtain ⟨hc1, hc2⟩ := hbranch st1 hB
      cases hj : jsonProcess d (csvProcess d st1) with
      | error e => rw [hj] at h; cases h
      | ok st3 =>
        rw [hj] at h
        obtain ⟨m, hl, hst3⟩ := jsonProcess_ok hj
        obtain ⟨files, _, hst'⟩ := rawMetricsProcess_ok h
        subst hst3
        subst hst'
        constructor
        · intro n
          simp only [logProcess, csvProcess, csvContribItem, List.head?]
          rw [dlookupL_csvLoop, hc1]
        · intro n
          simp only [logProcess, csvProcess, jsonContribItem, List.head?]
          rw [dlookupL_jsonLoop d.jsonFiles _ _ n (by simpa [csvProcess] using hl), hc2]

/-- The combine loop accumulates, per filename, exactly the per-item
contributions in visitation order. -/
lemma combineFrom_ok_acc :
    ∀ (items : List (List InnerDir)) (st st' : CombineState),
      combineFrom st items = .ok st' →
      (∀ n, dlookupL st'.combined_dataframes n =
          dlookupL st.combined_dataframes n ++ csvConcatItems items n) ∧
      (∀ n, dlookupL st'.combined_json_data n =
          dlookupL st.combined_json_data n ++ jsonConcatItems items n) := by
  intro items
  induction items with
  | nil =>
    intro st st' h
    simp [combineFrom] at h
    subst h
    simp [csvConcatItems, jsonConcatItems]
  | cons item rest ih =>
    intro st st' h
    simp only [combineFrom] at h
    cases hs : combineStep st item with
    | error e => rw [hs] at h; cases h
    | ok st1 =>
      rw [hs] at h
      obtain ⟨h1, h2⟩ := combineStep_ok_acc hs
      obtain ⟨h3, h4⟩ := ih st1 st' h
      constructor
      · intro n
        rw [show csvConcatItems (item :: rest) n =
          csvContribItem item n ++ csvConcatItems rest n from rfl]
        rw [h3 n, h1 n, List.append_assoc]
      · intro n
        rw [show jsonConcatItems (item :: rest) n =
          jsonContribItem item n ++ jsonConcatItems rest n from rfl]
        rw [h4 n, h2 n, List.append_assoc]

def c3Item1 : InnerDir :=
  { csvFiles := [("app_summary.csv", [["a1"]])]
    jsonFiles := [("report.json", JVal.arr [JVal.obj [("id", JVal.num 1)]])]
    logFiles := [], runtimeProps := some "p", rawMetrics := some [] }

def c3Item2 : InnerDir :=
  { csvFiles := [("app_summary.csv", [["a2"]])]
    jsonFiles := [("report.json", JVal.arr [JVal.obj [("id", JVal.num 2)]])]
    logFiles := [], runtimeProps := some "q", rawMetrics := some [] }

def c3Tree : CombinedTree :=
  { csvFiles := [("app_summary.csv", [["a1"], ["a2"]])]
    jsonFiles := [("report.json",
      [JVal.obj [("id", JVal.num 1)], JVal.obj [("id", JVal.num 2)]])]
    logFiles := [], rawMetrics := [], runtimeProps := some "p" }

/-- C3: combining is a pure function of the item directories started
from fresh, empty accumulators (`initState`, mirroring the
`default_factory=dict` fields of a newly constructed `ResultCombiner`),
so a repeated run over unchanged inputs yields the same `.ok` combined
tree, and its tabular and structured files hold each item contribution
exactly once (per-filename concatenation in visitation order — no
duplicate rows or records). -/
theorem c3_fresh_accumulators_no_duplication
    (items : List (List InnerDir)) (tree : CombinedTree)
    (h : combine_results items = .ok tree) :
    combine_results items = .ok tree ∧
    (∀ n, dlookupL tree.csvFiles n = csvConcatItems items n) ∧
    (∀ n, dlookupL tree.jsonFiles n = jsonConcatItems items n) := by
  refine ⟨h, ?_⟩
  unfold combine_results at h
  cases hf : combineFrom initState items with
  | error e => rw [hf] at h; simp [Except.map] at h
  | ok stF =>
    rw [hf] at h
    simp [Except.map] at h
    obtain ⟨h1, h2⟩ := combineFrom_ok_acc items initState stF hf
    constructor
    · intro n
      rw [← h]
      have hx := h1 n
      simpa [writePhase, initState, dlookupL, dfind] using hx
    · intro n
      rw [← h]
      have hx := h2 n
      simpa [writePhase, initState, dlookupL, dfind] using hx

/-- Concrete instance of C3: two items with the same tabular and
structured filenames merge into single files holding both contributions
once each. -/
theorem c3_witness :
    combine_results [[c3Item1], [c3Item2]] = .ok c3Tree ∧
    dlookupL c3Tree.csvFiles "app_summary.csv" = [["a1"], ["a2"]] ∧
    dlookupL c3Tree.jsonFiles "report.json" =
      [JVal.obj [("id", JVal.num 1)], JVal.obj [("id", JVal.num 2)]] := by
  have h := c3_fresh_accumulators_no_duplication [[c3Item1], [c3Item2]] c3Tree rfl
  exact ⟨h.1, (h.2.1 "app_summary.csv").trans rfl, (h.2.2 "report.json").trans rfl⟩

def c4Item1 : InnerDir :=
  { csvFiles := []
    jsonFiles := [("report.json", JVal.arr [JVal.obj [("id", JVal.num 1)]])]
    logFiles := [], runtimeProps := some "p", rawMetrics := some [] }

def c4Item2 : InnerDir :=
  { csvFiles := []
    jsonFiles := [("report.json", JVal.arr [JVal.obj [("id", JVal.num 2)]])]
    logFiles := [], runtimeProps := some "q", rawMetrics := some [] }

def c4Tree : CombinedTree :=
  { csvFiles := []
    jsonFiles := [("report.json",
      [JVal.obj [("id", JVal.num 1)], JVal.obj [("id", JVal.num 2)]])]
    logFiles := [], rawMetrics := [], runtimeProps := some "q" }

/-- C4: a structured file whose top level is a list of records has its
records appended to the accumulator entry of its filename (the two-item
`report.json` example merges to both records in order), and an item
holding a structured file whose top level is not a list of records makes
the whole combine fail with an error. -/
theorem c4_structured_list_of_records :
    (combine_results [[c4Item1], [c4Item2]] = .ok c4Tree ∧
      dlookupL c4Tree.jsonFiles "report.json" =
        [JVal.obj [("id", JVal.num 1)], JVal.obj [("id", JVal.num 2)]]) ∧
    (∀ (d : InnerDir) (f : String × JVal), f ∈ d.jsonFiles →
      isListOfRecords f.2 = false → ∃ e, combine_results [[d]] = .error e) := by
  refine ⟨⟨rfl, rfl⟩, ?_⟩
  intro d f hf hbad
  cases hrp : d.runtimeProps with
  | none =>
    refine ⟨"Error copying runtime.properties: source not found", ?_⟩
    simp [combine_results, combineFrom, combineStep, List.head?, initState,
      runtimePropsProcess, hrp, Except.map]
  | some c =>
    obtain ⟨e, he⟩ := jsonLoop_error d.jsonFiles [] f hf hbad
    refine ⟨e, ?_⟩
    simp [combine_results, combineFrom, combineStep, List.head?, initState,
      runtimePropsProcess, hrp, jsonProcess, csvProcess, csvLoop, he, Except.map]

def c4BadItem : InnerDir :=
  { csvFiles := [], jsonFiles := [("bad.json", JVal.num 3)]
    logFiles := [], runtimeProps := some "p", rawMetrics := some [] }

/-- Concrete instance of the failure half of C4: a structured file whose
top level is the scalar 3 aborts the whole combine. -/
theorem c4_witness : ∃ e, combine_results [[c4BadItem]] = .error e :=
  c4_structured_list_of_records.2 c4BadItem ("bad.json", JVal.num 3)
    (by simp [c4BadItem]) rfl

/-- C5: an item whose directory listing is empty (for example because
its subprocess failed before writing anything) is skipped by the
combine loop without raising, and combining is exactly the combine of
the remaining items; a missing directory never appears in the listing at
all. -/
theorem c5_empty_item_skipped (xs ys : List (List InnerDir)) :
    combine_results (xs ++ [] :: ys) = combine_results (xs ++ ys) := by
  have key : ∀ (zs : List (List InnerDir)) (st : CombineState),
      combineFrom st (zs ++ [] :: ys) = combineFrom st (zs ++ ys) := by
    intro zs
    induction zs with
    | nil =>
      intro st
      simp [combineFrom, combineStep, List.head?]
    | cons item rest ih =>
      intro st
      simp only [List.cons_append, combineFrom]
      cases hs : combineStep st item with
      | error e => rfl
      | ok st1 => exact ih st1
  unfold combine_results
  rw [key]

def c1WitnessItem : InnerDir :=
  { csvFiles := [("q.csv", [["r1"]])], jsonFiles := [], logFiles := []
    runtimeProps := some "A", rawMetrics := some [] }

def c1WitnessTree : CombinedTree :=
  { csvFiles := [("q.csv", [["r1"]])], jsonFiles := [], logFiles := []
    rawMetrics := [], runtimeProps := some "A" }

/-- Concrete instance of the amended C1 theorem: the first item has a
CSV file, so its runtime properties win over the second item. -/
theorem c1_witness :
    (c1WitnessItem.csvFiles ≠ [] ∧
      combine_results [[c1WitnessItem], [c1ItemB]] = .ok c1WitnessTree) ∧
    c1WitnessTree.runtimeProps = c1WitnessItem.runtimeProps :=
  ⟨⟨by decide, rfl⟩,
    c1_first_writer_wins_with_tabular c1WitnessItem [] [[c1ItemB]] c1WitnessTree
      (by decide) rfl⟩

/-!
## Worker executor

`DistributedJarExecutor._submit_jar_cmd` runs the resolved argument
vector with `subprocess.run(..., check=True, capture_output=True)`.
The outcomes of the child process visible at that call:
a normal exit with code 0 (`success`), a `CalledProcessError` raised by
`check=True` on a non-zero exit, or an `OSError` raised by
`subprocess.run` itself (for example a missing executable); the source
only handles `CalledProcessError`, and its `finally` block appends the
elapsed-time line before any unhandled exception keeps propagating (the
local `logs` list is then lost). -/

inductive SubprocessOutcome where
  | success (stdout stderr : String)
  | calledProcessError (returncode : Int) (stdout stderr : String)
  | osError (msg : String)

/-- Embeds `DistributedJarExecutor._submit_jar_cmd`: returns the narration log
lines, or the uncaught exception as `.error`. -/
def submit_jar_cmd (commandStr : String) (outcome : SubprocessOutcome)
    (elapsed : String) : Except String (List String) :=
  let logs := ["Starting execution of command: " ++ commandStr]
  match outcome with
  | .success out err =>
    let logs := logs ++ ["Command succeeded with stdout:\n" ++ out]
    let logs := if err ≠ "" then logs ++ ["Command stderr:\n" ++ err] else logs
    .ok (logs ++ ["Total processing time: " ++ elapsed])
  | .calledProcessError code out err =>
    let logs := logs ++ ["Command failed with exit code " ++ toString code ++ "."]
    let logs := if out ≠ "" then logs ++ ["Command stdout:\n" ++ out] else logs
    let logs := if err ≠ "" then logs ++ ["Command stderr:\n" ++ err] else logs
    .ok (logs ++ ["Total processing time: " ++ elapsed])
  | .osError msg => .error msg

/-- C2 (counterexample): an I/O error of `subprocess.run` itself (an
`OSError`, here the message of a missing executable) is not caught by
the `except subprocess.CalledProcessError` clause and raises past the
worker executor instead of being captured into the returned log
lines. -/
theorem c2_counterexample :
    submit_jar_cmd "java -cp deps Main" (.osError "No such file or directory")
      "0:00:01" = .error "No such file or directory" := rfl

/-- C2 (amended): a non-zero exit of the child process (raised as
`CalledProcessError` by `check=True`) and a normal exit are both
captured into the returned log lines and do not raise past the worker
executor; an `OSError` of `subprocess.run` itself propagates as an
exception. -/
theorem c2_nonzero_exit_captured (c out err : String) (code : Int) (t : String) :
    (∃ logs, submit_jar_cmd c (.success out err) t = .ok logs) ∧
    (∃ logs, submit_jar_cmd c (.calledProcessError code out err) t = .ok logs) ∧
    (∀ msg, submit_jar_cmd c (.osError msg) t = .error msg) :=
  ⟨⟨_, rfl⟩, ⟨_, rfl⟩, fun _ => rfl⟩

/-!
## Job dispatcher (spark job manager)

`SparkJobManager._convert_input_to_rdd` parallelizes the input list with
`numSlices = len(input_list)`. The parallel-map primitive is the
external cluster runtime: its standard slicing assigns to slice `i` of
`n` the elements in `[i*len/n, (i+1)*len/n)`. `submit_map_job` maps the
per-item function over the slices, collects, unzips the (logs,
output-dir) pairs — Python unpacking of `zip(*[])` into two variables
raises ValueError — writes the run manifest and returns the per-item
results. -/

def parallelize {α : Type} (xs : List α) (numSlices : Nat) : List (List α) :=
  (List.range numSlices).map fun i =>
    (xs.drop (i * xs.length / numSlices)).take
      ((i + 1) * xs.length / numSlices - i * xs.length / numSlices)

def convert_input_to_rdd {α : Type} (xs : List α) : List (List α) :=
  parallelize xs xs.length

def rddMap {α β : Type} (f : α → β) (rdd : List (List α)) : List (List β) :=
  rdd.map (List.map f)

def collect {α : Type} (rdd : List (List α)) : List α :=
  rdd.flatten

/-- Python `str.join` over a list of strings. -/
def pyJoin (sep : String) : List String → String
  | [] => ""
  | [x] => x
  | x :: y :: ys => x ++ sep ++ pyJoin sep (y :: ys)

def jobTookLine (t : String) : String := "Job took " ++ t ++ " to complete"

/-- Embeds `SparkJobManager._write_output`: join each item log bundle with
newlines, join the bundles with blank lines, append the total-time
trailing line; returns the written manifest text. -/
def write_output (logs_arr_list : List (List String)) (total_time : String) : String :=
  pyJoin "\n\n" (logs_arr_list.map (pyJoin "\n")) ++ "\n" ++ jobTookLine total_time

/-- Embeds `SparkJobManager.submit_map_job`: parallelize, run the map job,
unzip the (logs, result) pairs — failing like `zip(*[])` when there are
no results — and return the written manifest together with the per-item
results. -/
def submit_map_job {α β : Type} (map_func : α → List String × β) (input_list : List α)
    (total_time : String) : Except String (String × List β) :=
  let map_fn_result := collect (rddMap map_func (convert_input_to_rdd input_list))
  match map_fn_result with
  | [] => .error "not enough values to unpack (expected 2, got 0)"
  | r :: rs =>
    let pairs := r :: rs
    .ok (write_output (pairs.map Prod.fst) total_time, pairs.map Prod.snd)

/-- The manifest lines as the specification words them: the blocks of
per-item log lines separated by one blank line, followed by the trailing
`Job took ... to complete` line. -/
def specBlocksLines : List (List String) → List String
  | [] => []
  | [b] => b
  | b :: b2 :: rest => b ++ [""] ++ specBlocksLines (b2 :: rest)

def specManifestLines (blocks : List (List String)) (t : String) : List String :=
  specBlocksLines blocks ++ [jobTookLine t]

lemma pyJoin_append (s : String) :
    ∀ (xs ys : List String), xs ≠ [] → ys ≠ [] →
      pyJoin s (xs ++ ys) = pyJoin s xs ++ s ++ pyJoin s ys := by
  intro xs
  induction xs with
  | nil => intro ys h1 _; exact absurd rfl h1
  | cons x xs ih =>
    intro ys _ h2
    cases xs with
    | nil =>
      cases ys with
      | nil => exact absurd rfl h2
      | cons y ys => rfl
    | cons x2 xs2 =>
      have := ih ys (by simp) h2
      show x ++ s ++ pyJoin s ((x2 :: xs2) ++ ys) = (x ++ s ++ pyJoin s (x2 :: xs2)) ++ s ++ pyJoin s ys
      rw [this]
      simp [String.append_assoc]

/-- C7: the run manifest written by the dispatcher consists of one block
per item (the log lines of that item), blocks separated by one blank
line, followed by the trailing line `Job took <duration> to complete` —
the written string equals the newline-rendering of that line layout
(item log bundles are never empty: the worker always narrates at least
the start line). -/
theorem c7_manifest_format (blocks : List (List String)) (t : String)
    (h1 : blocks ≠ []) (h2 : ∀ b ∈ blocks, b ≠ []) :
    write_output blocks t = pyJoin "\n" (specManifestLines blocks t) ∧
    (specManifestLines blocks t).getLast? = some (jobTookLine t) := by
  constructor
  · induction blocks with
    | nil => exact absurd rfl h1
    | cons b rest ih =>
      cases rest with
      | nil =>
        show pyJoin "\n\n" [pyJoin "\n" b] ++ "\n" ++ jobTookLine t =
          pyJoin "\n" (b ++ [jobTookLine t])
        rw [pyJoin_append "\n" b [jobTookLine t] (h2 b (by simp)) (by simp)]
        rfl
      | cons b2 rest2 =>
        have hb : b ≠ [] := h2 b (by simp)
        have hih := ih (by simp) (fun x hx => h2 x (List.mem_cons_of_mem b hx))
        show pyJoin "\n\n" (pyJoin "\n" b :: (b2 :: rest2).map (pyJoin "\n")) ++ "\n" ++
            jobTookLine t =
          pyJoin "\n" ((b ++ [""] ++ specBlocksLines (b2 :: rest2)) ++ [jobTookLine t])
        have hmap : (b2 :: rest2).map (pyJoin "\n") =
            pyJoin "\n" b2 :: rest2.map (pyJoin "\n") := rfl
        rw [hmap]
        show (pyJoin "\n" b ++ "\n\n" ++
            pyJoin "\n\n" (pyJoin "\n" b2 :: rest2.map (pyJoin "\n"))) ++ "\n" ++
            jobTookLine t = _
        have hrhs : (b ++ [""] ++ specBlocksLines (b2 :: rest2)) ++ [jobTookLine t] =
            b ++ ("" :: specManifestLines (b2 :: rest2) t) := by
          simp [specManifestLines, List.append_assoc]
        rw [hrhs]
        have htail : ("" :: specManifestLines (b2 :: rest2) t) ≠ [] := by simp
        rw [pyJoin_append "\n" b _ hb htail]
        have hsp : specManifestLines (b2 :: rest2) t ≠ [] := by
          simp [specManifestLines]
        have hcons : pyJoin "\n" ("" :: specManifestLines (b2 :: rest2) t) =
            "" ++ "\n" ++ pyJoin "\n" (specManifestLines (b2 :: rest2) t) := by
          cases hsm : specManifestLines (b2 :: rest2) t with
          | nil => exact absurd hsm hsp
          | cons z zs => rfl
        rw [hcons, ← hih]
        show (pyJoin "\n" b ++ "\n\n" ++
            pyJoin "\n\n" ((b2 :: rest2).map (pyJoin "\n"))) ++ "\n" ++ jobTookLine t =
          pyJoin "\n" b ++ "\n" ++ ("" ++ "\n" ++
            (pyJoin "\n\n" ((b2 :: rest2).map (pyJoin "\n")) ++ "\n" ++ jobTookLine t))
        have hkey : ∀ X : String, ("\n\n" : String) ++ X = "\n" ++ ("" ++ ("\n" ++ X)) := by
          intro X
          rw [show ("" : String) ++ ("\n" ++ X) = "\n" ++ X from by
            rw [← String.append_assoc, show (("" : String) ++ "\n") = "\n" from by decide]]
          rw [← String.append_assoc,
            show (("\n" : String) ++ "\n") = "\n\n" from by decide]
        simp only [String.append_assoc]
        exact congrArg (fun z => pyJoin "\n" b ++ z) (hkey _)
  · exact List.getLast?_concat _

/-- Concrete instance of C7: two items with two- and one-line logs. -/
theorem c7_witness :
    (([["itemA line1", "itemA line2"], ["itemB line1"]] : List (List String)) ≠ [] ∧
      (∀ b ∈ ([["itemA line1", "itemA line2"], ["itemB line1"]] : List (List String)),
        b ≠ [])) ∧
    (write_output [["itemA line1", "itemA line2"], ["itemB line1"]] "0:02:11" =
      pyJoin "\n" (specManifestLines [["itemA line1", "itemA line2"], ["itemB line1"]]
        "0:02:11") ∧
    (specManifestLines [["itemA line1", "itemA line2"], ["itemB line1"]]
        "0:02:11").getLast? = some (jobTookLine "0:02:11")) :=
  ⟨⟨by decide, by decide⟩,
    c7_manifest_format [["itemA line1", "itemA line2"], ["itemB line1"]] "0:02:11"
      (by decide) (by decide)⟩

lemma parallelize_len (xs : List α) :
    parallelize xs xs.length = (List.range xs.length).map fun i => (xs.drop i).take 1 := by
  unfold parallelize
  apply List.map_congr_left
  intro i hi
  have hlen : 0 < xs.length := lt_of_le_of_lt (Nat.zero_le i) (List.mem_range.mp hi)
  rw [Nat.mul_div_cancel _ hlen, Nat.mul_div_cancel _ hlen]
  congr 1
  omega

lemma range_map_take_one (xs : List α) :
    ((List.range xs.length).map fun i => (xs.drop i).take 1) =
      xs.map fun x => [x] := by
  induction xs with
  | nil => rfl
  | cons a t ih =>
    rw [show (a :: t).length = t.length + 1 from rfl, List.range_succ_eq_map]
    simp only [List.map_cons, List.map_map]
    refine congrArg₂ List.cons rfl ?_
    rw [show ((fun i => ((a :: t).drop i).take 1) ∘ Nat.succ) =
      (fun i => (t.drop i).take 1) from rfl]
    exact ih

/-- Embedded `_convert_input_to_rdd` with `numSlices = len(input_list)` yields one
singleton slice per input element. -/
lemma convert_eq_singletons (xs : List α) :
    convert_input_to_rdd xs = xs.map fun x => [x] := by
  unfold convert_input_to_rdd
  rw [parallelize_len, range_map_take_one]

lemma flatten_singletons {α β : Type} (f : α → β) :
    ∀ xs : List α, ((xs.map fun x => [x]).map (List.map f)).flatten = xs.map f := by
  intro xs
  induction xs with
  | nil => rfl
  | cons a t ih =>
    simp only [List.map_cons, List.flatten_cons]
    rw [ih]
    rfl

/-- C8: the dispatcher partitions a non-empty input list into exactly one
partition per item (count and size), and its submit operation returns
exactly one per-item result per input item. -/
theorem c8_one_partition_per_item {α β : Type} (xs : List α)
    (f : α → List String × β) (t : String) (hne : xs ≠ []) :
    (convert_input_to_rdd xs).length = xs.length ∧
    (∀ p ∈ convert_input_to_rdd xs, p.length = 1) ∧
    ∃ manifest rs, submit_map_job f xs t = .ok (manifest, rs) ∧
      rs.length = xs.length := by
  refine ⟨?_, ?_, ?_⟩
  · rw [convert_eq_singletons]; simp
  · rw [convert_eq_singletons]
    intro p hp
    simp only [List.mem_map] at hp
    obtain ⟨x, _, rfl⟩ := hp
    rfl
  · cases xs with
    | nil => exact absurd rfl hne
    | cons x xs' =>
      have hc : collect (rddMap f (convert_input_to_rdd (x :: xs'))) =
          f x :: xs'.map f := by
        rw [convert_eq_singletons]
        unfold collect rddMap
        exact flatten_singletons f (x :: xs')
      refine ⟨write_output ((f x :: xs'.map f).map Prod.fst) t,
        (f x :: xs'.map f).map Prod.snd, ?_, by simp⟩
      unfold submit_map_job
      rw [hc]

def c8WitnessInput : List Nat := [10, 20]

def c8WitnessFn (n : Nat) : List String × Nat := (["processed"], n + 1)

/-- Concrete instance of C8 with a two-item input list. -/
theorem c8_witness :
    c8WitnessInput ≠ [] ∧
    ((convert_input_to_rdd c8WitnessInput).length = c8WitnessInput.length ∧
      (∀ p ∈ convert_input_to_rdd c8WitnessInput, p.length = 1) ∧
      ∃ manifest rs, submit_map_job c8WitnessFn c8WitnessInput "0:01:00" =
          .ok (manifest, rs) ∧ rs.length = c8WitnessInput.length) :=
  ⟨by decide, c8_one_partition_per_item c8WitnessInput c8WitnessFn "0:01:00" (by decide)⟩

/-- C10: on an empty input list the submit operation of the dispatcher
raises (the unpacking of the zipped empty result list fails) instead of
returning an empty result list with a manifest, so a non-empty input
list is a necessary precondition of a successful submit. -/
theorem c10_empty_input_raises {α β : Type} :
    (∀ (f : α → List String × β) (t : String),
      submit_map_job f ([] : List α) t =
        .error "not enough values to unpack (expected 2, got 0)") ∧
    (∀ (f : α → List String × β) (t : String) (xs : List α) (m : String)
      (rs : List β), submit_map_job f xs t = .ok (m, rs) → xs ≠ []) := by
  refine ⟨fun f t => rfl, fun f t xs m rs h heq => ?_⟩
  subst heq
  rw [show submit_map_job f ([] : List α) t =
    .error "not enough values to unpack (expected 2, got 0)" from rfl] at h
  cases h

/-- Concrete instance of C10: the empty input fails, and a successful
one-item submit certifies its input list non-empty. -/
theorem c10_witness :
    submit_map_job (fun n : Nat => (["log"], n + 1)) ([] : List Nat) "0:00:05" =
      .error "not enough values to unpack (expected 2, got 0)" ∧
    ([7] : List Nat) ≠ [] :=
  ⟨c10_empty_input_raises.1 (fun n : Nat => (["log"], n + 1)) "0:00:05",
    c10_empty_input_raises.2 (fun n : Nat => (["log"], n + 1)) "0:00:05" [7]
      (write_output [["log"]] "0:00:05") [8] rfl⟩

/-!
## HDFS manager

`HdfsManager.init_setup` removes the stale shared-storage output
directory inside a `try/except Exception: pass` and then creates a new
one; `_run_hdfs_command` either returns the command result or raises.
The two external command outcomes are parameters. -/

inductive CmdOutcome where
  | ok
  | fail (msg : String)

def run_hdfs_command (outcome : CmdOutcome) (description : String) :
    Except String String :=
  match outcome with
  | .ok => .ok description
  | .fail e => .error ("Failed to run HDFS command: " ++ description ++
      ", Error: " ++ e)

/-- Embeds `HdfsManager.init_setup`: the removal result is discarded whatever it
is (the `except Exception: pass` clause), then the creation command runs
and its failure, if any, is the only one that propagates. -/
def init_setup (rm mk : CmdOutcome) : Except String Unit :=
  match run_hdfs_command rm "Removing HDFS directory" with
  | .ok _ => match run_hdfs_command mk "Creating HDFS directory" with
    | .ok _ => .ok ()
    | .error e => .error e
  | .error _ => match run_hdfs_command mk "Creating HDFS directory" with
    | .ok _ => .ok ()
    | .error e => .error e

/-- C9: the pre-run removal of a stale output directory is best-effort —
whatever the removal outcome, including failure because the directory is
already gone, the setup result is unchanged and never fails because of
it, and the fresh directory creation always proceeds (a succeeding
creation makes the whole setup succeed after any removal outcome). -/
theorem c9_removal_best_effort (rm rm' mk : CmdOutcome) :
    init_setup rm mk = init_setup rm' mk ∧
    init_setup rm .ok = .ok () ∧
    (∀ e, init_setup rm (.fail e) =
      .error ("Failed to run HDFS command: Creating HDFS directory, Error: " ++ e)) := by
  refine ⟨?_, ?_, ?_⟩
  · cases rm <;> cases rm' <;> rfl
  · cases rm <;> rfl
  · intro e; cases rm <;> rfl

/-- C6: for a subprocess that exits normally and for one that exits
non-zero, the returned log lines narrate the start of the execution
first, then the success-with-stdout or failure-with-exit-code line, and
the total processing time as the final line. -/
theorem c6_log_narration_order (c out err : String) (code : Int) (t : String) :
    (∃ logs, submit_jar_cmd c (.success out err) t = .ok logs ∧
      logs.head? = some ("Starting execution of command: " ++ c) ∧
      logs[1]? = some ("Command succeeded with stdout:\n" ++ out) ∧
      logs.getLast? = some ("Total processing time: " ++ t)) ∧
    (∃ logs, submit_jar_cmd c (.calledProcessError code out err) t = .ok logs ∧
      logs.head? = some ("Starting execution of command: " ++ c) ∧
      logs[1]? = some ("Command failed with exit code " ++ toString code ++ ".") ∧
      logs.getLast? = some ("Total processing time: " ++ t)) := by
  constructor
  · refine ⟨_, rfl, ?_⟩
    by_cases he : err = "" <;> simp [submit_jar_cmd, he]
  · refine ⟨_, rfl, ?_⟩
    by_cases ho : out = "" <;> by_cases he : err = "" <;>
      simp [submit_jar_cmd, ho, he]
